import Mathlib

/-!
Verification development for `capture.py`: a multi-camera GStreamer capture
utility that pulls compressed video frames from per-camera appsinks and logs
each frame as a `CompressedVideo` record into a single MCAP journal, one
channel (topic) per camera, one capture thread per camera, sharing a single
stop event.

The Python source is shallowly embedded below. Opaque external services
(GStreamer pipeline construction, the foxglove MCAP writer, wall-clock time)
are modelled as an environment of oracles; the orchestration logic of the
script (frame-id derivation, the pull/log loop, the startup loop, the thread
start loop, teardown) is translated function by function.
-/

namespace Capture

/-- `Gst.CLOCK_TIME_NONE`: the u64 sentinel marking an absent timestamp. -/
def CLOCK_TIME_NONE : Nat := 2 ^ 64 - 1

/-- A GStreamer buffer as the script uses it: `buf.pts`, `buf.dts`
(u64 values, `CLOCK_TIME_NONE` when absent) and the payload bytes that
`buf.extract_dup(0, buf.get_size())` copies out. -/
structure GstBuffer where
  pts : Nat
  dts : Nat
  data : List Nat
deriving DecidableEq, Repr

/-- Result of `sink.emit("pull-sample")` in one loop iteration:
the call may raise, return `None`, or return a sample whose
`get_buffer()` is `None` or an actual buffer. -/
inductive PullResult where
  | raised : PullResult
  | empty : PullResult
  | sample : Option GstBuffer → PullResult
deriving DecidableEq, Repr

/-- The message built at lines 126-131 of `capture.py`:
`CompressedVideo(timestamp=..., data=..., format="h264", frame_id=...)`. -/
structure CompressedVideo where
  timestamp : Nat
  data : List Nat
  format : String
  frame_id : String
deriving DecidableEq, Repr

/-- Frame-identifier derivation, lines 112-122 of `capture.py`: prefer
`pts`, else `dts`, else increment the thread-local counter. Returns the
identifier together with the updated `frame_seq_local`. -/
def frameId (buf : GstBuffer) (frame_seq_local : Nat) : String × Nat :=
  if buf.pts ≠ CLOCK_TIME_NONE then
    ("pts:" ++ toString buf.pts, frame_seq_local)
  else if buf.dts ≠ CLOCK_TIME_NONE then
    ("dts:" ++ toString buf.dts, frame_seq_local)
  else
    ("seq:" ++ toString (frame_seq_local + 1), frame_seq_local + 1)

/-- Whether a buffer lacks both timestamps, i.e. forces the `seq:` fallback. -/
def isFallback (buf : GstBuffer) : Prop :=
  buf.pts = CLOCK_TIME_NONE ∧ buf.dts = CLOCK_TIME_NONE

instance (buf : GstBuffer) : Decidable (isFallback buf) := by
  unfold isFallback; infer_instance

/-- The environment one iteration of `capture_loop` observes:
the stop event at the loop-top check, the pull result, whether
`channel.log` would succeed, and the wall clock read by `time.time()`. -/
structure LoopInput where
  stopSet : Bool
  pull : PullResult
  writeOk : Bool
  now : Nat
deriving DecidableEq, Repr

/-- Observable events of one worker's loop, in program order. -/
inductive Event where
  | stopObserved : Event
  | pullRaised : Event
  | pullEmpty : Event
  | idleWait : Event
  | pullNoBuffer : Event
  | pullFrame : GstBuffer → Nat → Event
  | writeAttempt : CompressedVideo → Event
  | writeFailed : Event
deriving DecidableEq, Repr

/-- The record built for a pulled buffer (lines 124-131). -/
def mkMsg (now : Nat) (buf : GstBuffer) (fid : String) : CompressedVideo :=
  { timestamp := now, data := buf.data, format := "h264", frame_id := fid }

/-- `capture_loop` (lines 91-138) over a finite schedule of iteration
environments, threading `frame_seq_local`. Returns the event trace and
`some` final counter when the schedule ran out with the loop still live,
`none` when the loop exited (stop observed, pull raised, or write failed). -/
def capture_loop : List LoopInput → Nat → List Event × Option Nat
  | [], seq => ([], some seq)
  | i :: rest, seq =>
    if i.stopSet then
      ([Event.stopObserved], none)
    else
      match i.pull with
      | PullResult.raised => ([Event.pullRaised], none)
      | PullResult.empty =>
          let r := capture_loop rest seq
          (Event.pullEmpty :: Event.idleWait :: r.1, r.2)
      | PullResult.sample none =>
          let r := capture_loop rest seq
          (Event.pullNoBuffer :: r.1, r.2)
      | PullResult.sample (some buf) =>
          let d := frameId buf seq
          let msg := mkMsg i.now buf d.1
          if i.writeOk then
            let r := capture_loop rest d.2
            (Event.pullFrame buf i.now :: Event.writeAttempt msg :: r.1, r.2)
          else
            ([Event.pullFrame buf i.now, Event.writeAttempt msg,
              Event.writeFailed], none)

/-- A worker's trace: `capture_loop` is entered with `frame_seq_local = 0`
(line 93). -/
def worker_trace (inputs : List LoopInput) : List Event :=
  (capture_loop inputs 0).1

/-- The write attempts of a trace, in order. -/
def writeRecords (es : List Event) : List CompressedVideo :=
  es.filterMap fun e =>
    match e with
    | Event.writeAttempt m => some m
    | _ => none

/-- The frames pulled in a trace (buffer and wall-clock instant), in order. -/
def pulledFrames (es : List Event) : List (GstBuffer × Nat) :=
  es.filterMap fun e =>
    match e with
    | Event.pullFrame b t => some (b, t)
    | _ => none

/-- Derive the records the worker should write for a list of pulled frames,
threading the fallback counter exactly as `frameId` does. -/
def deriveAll : Nat → List (GstBuffer × Nat) → List CompressedVideo
  | _, [] => []
  | c, (b, t) :: rest =>
    let d := frameId b c
    mkMsg t b d.1 :: deriveAll d.2 rest

/-- The traces of a session's workers: each thread runs `capture_loop` on its
own schedule with its own `frame_seq_local = 0`; no state is shared. -/
def session_traces (schedules : List (List LoopInput)) : List (List Event) :=
  schedules.map worker_trace

/-! ### Startup, channels, threads, teardown (module level of `capture.py`) -/

/-- The command-line arguments (lines 12-16). -/
structure Args where
  camera_index : Nat
  mac : Bool
  dual : Bool
deriving DecidableEq, Repr

/-- What the opaque GStreamer layer does for one camera index inside
`make_pipeline`'s `try` block: either some call raises (`parse_launch`,
`get_by_name`, `set_state`), or everything runs and `get_by_name("sink")`
found the appsink or not. -/
inductive PipelineResult where
  | fail : PipelineResult
  | ok : Bool → PipelineResult
deriving DecidableEq, Repr

/-- GStreamer element state as the script drives it. -/
inductive GstState where
  | playing : GstState
  | null : GstState
deriving DecidableEq, Repr

/-- A constructed pipeline handle: its camera index and element state. -/
structure Pipeline where
  idx : Nat
  state : GstState
deriving DecidableEq, Repr

/-- The environment of opaque collaborators for one program run. -/
structure Env where
  pipe : Nat → PipelineResult
  mcapOpenOk : Bool
  mcapErr : String
  startTime : String
  sched : Nat → List LoopInput

/-- `make_pipeline` (lines 43-53): on any exception print one warning and
return `(None, None)`; otherwise the pipeline is set PLAYING and returned
with the (possibly `None`) appsink, modelled by its camera index. -/
def make_pipeline (env : Env) (idx : Nat) :
    Option Pipeline × Option Nat × List String :=
  match env.pipe idx with
  | PipelineResult.fail =>
      (none, none, ["Failed to create pipeline for index " ++ toString idx])
  | PipelineResult.ok sinkPresent =>
      (some { idx := idx, state := GstState.playing },
       if sinkPresent then some idx else none, [])

/-- The camera indices to open (line 57). -/
def indices (camera_index : Nat) (dual : Bool) : List Nat :=
  if dual then [camera_index, camera_index + 1] else [camera_index]

/-- The startup loop (lines 59-67): call `make_pipeline` per index; on
failure `continue` (skip the index), else append to `pipelines` and
`appsinks`. Returns `(pipelines, appsinks, printed errors)`. -/
def build (env : Env) : List Nat →
    List (Nat × Pipeline) × List (Nat × Option Nat) × List String
  | [] => ([], [], [])
  | idx :: rest =>
    let m := make_pipeline env idx
    let r := build env rest
    match m.1 with
    | none => (r.1, r.2.1, m.2.2 ++ r.2.2)
    | some pl => ((idx, pl) :: r.1, (idx, m.2.1) :: r.2.1, m.2.2 ++ r.2.2)

/-- The MCAP file name (line 69): first camera index and start time only. -/
def mcap_file (camera_index : Nat) (t : String) : String :=
  "camera_" ++ toString camera_index ++ "_" ++ t ++ ".mcap"

/-- The per-camera channel topic (line 85). -/
def topic (idx : Nat) : String :=
  "/camera/" ++ toString idx ++ "/image/compressed"

/-- The thread-start loop (lines 141-147): start one capture thread per
appsink whose channel exists and whose sink is not `None`. Returns the
camera indices that got a thread. `chKeys` is the key set of the `channels`
dict built at lines 83-86. -/
def startThreads (appsinks : List (Nat × Option Nat)) (chKeys : List Nat) :
    List Nat :=
  appsinks.filterMap fun is =>
    if chKeys.contains is.1 && is.2.isSome then some is.1 else none

/-- Observable outcome of one whole program run. -/
structure MainResult where
  errors : List String
  file : String
  channelTopics : List String
  threads : List Nat
  writes : List (Nat × CompressedVideo)
  pipelinesStarted : List (Nat × Pipeline)
  pipelinesAfterTeardown : List (Nat × Pipeline)
  fatal : Option String
  exitOk : Bool
deriving Repr

/-- The whole script (module level, lines 57-173): build pipelines, compute
the file name, open the MCAP writer; on open failure the exception is
reported (`Unexpected error: ...`) and re-raised so the process exits
non-zero, with no channels, threads or writes; otherwise create one channel
per appsink index, start the threads, and let each worker run its loop.
The `finally` block sets every started pipeline to NULL either way. -/
def main_run (a : Args) (env : Env) : MainResult :=
  let r := build env (indices a.camera_index a.dual)
  let file := mcap_file a.camera_index env.startTime
  let torn := r.1.map fun ip => (ip.1, { ip.2 with state := GstState.null })
  if env.mcapOpenOk then
    let chKeys := r.2.1.map Prod.fst
    let threads := startThreads r.2.1 chKeys
    { errors := r.2.2
      file := file
      channelTopics := chKeys.map topic
      threads := threads
      writes := (threads.map fun idx =>
        (writeRecords (worker_trace (env.sched idx))).map
          fun m => (idx, m)).flatten
      pipelinesStarted := r.1
      pipelinesAfterTeardown := torn
      fatal := none
      exitOk := true }
  else
    { errors := r.2.2
      file := file
      channelTopics := []
      threads := []
      writes := []
      pipelinesStarted := r.1
      pipelinesAfterTeardown := torn
      fatal := some ("Unexpected error: " ++ env.mcapErr)
      exitOk := false }

/-! ### Stop and teardown as state transformers (for idempotence) -/

/-- Session state shared across workers: the stop event and the element
states of the started pipelines. -/
structure SessionState where
  stopFlag : Bool
  pipelines : List (Nat × Pipeline)
deriving Repr

/-- `stop_event.set()` (line 157). -/
def setStop (s : SessionState) : SessionState :=
  { s with stopFlag := true }

/-- One pipeline's teardown step: `p.set_state(Gst.State.NULL)` (line 170). -/
def setNull (p : Pipeline) : Pipeline :=
  { p with state := GstState.null }

/-- The `finally` teardown loop (lines 166-172). -/
def teardownAll (s : SessionState) : SessionState :=
  { s with pipelines := s.pipelines.map fun ip => (ip.1, setNull ip.2) }

/-- The identifiers of the fallback-derived writes of a trace, read off the
pulled frame paired with each write attempt. -/
def fallbackWriteIds (es : List Event) : List String :=
  ((writeRecords es).zip (pulledFrames es)).filterMap fun p =>
    if isFallback p.2.1 then some p.1.frame_id else none

/-- How many pulled frames of a trace lacked both timestamps. -/
def numFallback (es : List Event) : Nat :=
  (pulledFrames es).countP fun p => decide (isFallback p.1)

/-! ### Concrete sample data for exercising the model -/

/-- A buffer with both timestamps present. -/
def bufPts : GstBuffer := { pts := 5, dts := 7, data := [1] }

/-- A buffer with only a decode timestamp. -/
def bufDts : GstBuffer := { pts := CLOCK_TIME_NONE, dts := 7, data := [2] }

/-- A buffer with no timing metadata at all. -/
def bufBare : GstBuffer :=
  { pts := CLOCK_TIME_NONE, dts := CLOCK_TIME_NONE, data := [3] }

/-- An iteration with no frame available. -/
def inEmpty : LoopInput :=
  { stopSet := false, pull := PullResult.empty, writeOk := true, now := 0 }

/-- An iteration at which the stop event is already set. -/
def inStop : LoopInput :=
  { stopSet := true, pull := PullResult.empty, writeOk := true, now := 0 }

/-- An iteration pulling a timestamp-less frame with a healthy sink. -/
def inBare : LoopInput :=
  { stopSet := false, pull := PullResult.sample (some bufBare),
    writeOk := true, now := 9 }

/-- An iteration pulling a timestamp-less frame whose log call fails. -/
def inBadWrite : LoopInput :=
  { stopSet := false, pull := PullResult.sample (some bufBare),
    writeOk := false, now := 9 }

/-- Environment: every pipeline opens cleanly, journal opens. -/
def envAllOk : Env :=
  { pipe := fun _ => PipelineResult.ok true
    mcapOpenOk := true
    mcapErr := ""
    startTime := "20250101_120000"
    sched := fun _ => [inBare, inEmpty] }

/-- Environment: camera 1 fails to open, everything else is fine. -/
def envFail1 : Env :=
  { pipe := fun n => if n = 1 then PipelineResult.fail
      else PipelineResult.ok true
    mcapOpenOk := true
    mcapErr := ""
    startTime := "20250101_120000"
    sched := fun _ => [inBare] }

/-- Environment: the journal cannot be opened. -/
def envNoJournal : Env :=
  { pipe := fun _ => PipelineResult.ok true
    mcapOpenOk := false
    mcapErr := "path conflict"
    startTime := "20250101_120000"
    sched := fun _ => [inBare] }

/-- Environment: camera 0's pipeline parses but has no appsink named
`sink`. -/
def envNoSink0 : Env :=
  { pipe := fun n => if n = 0 then PipelineResult.ok false
      else PipelineResult.ok true
    mcapOpenOk := true
    mcapErr := ""
    startTime := "20250101_120000"
    sched := fun _ => [inBare] }

/-! ### Helper lemmas -/

theorem frameId_of_pts (buf : GstBuffer) (c : Nat)
    (h : buf.pts ≠ CLOCK_TIME_NONE) :
    frameId buf c = ("pts:" ++ toString buf.pts, c) := by
  simp [frameId, h]

theorem frameId_of_dts (buf : GstBuffer) (c : Nat)
    (h1 : buf.pts = CLOCK_TIME_NONE) (h2 : buf.dts ≠ CLOCK_TIME_NONE) :
    frameId buf c = ("dts:" ++ toString buf.dts, c) := by
  simp [frameId, h1, h2]

theorem frameId_of_fallback (buf : GstBuffer) (c : Nat)
    (h : isFallback buf) :
    frameId buf c = ("seq:" ++ toString (c + 1), c + 1) := by
  simp [frameId, h.1, h.2]

theorem frameId_snd_of_not_fallback (buf : GstBuffer) (c : Nat)
    (h : ¬ isFallback buf) : (frameId buf c).2 = c := by
  by_cases h1 : buf.pts = CLOCK_TIME_NONE
  · by_cases h2 : buf.dts = CLOCK_TIME_NONE
    · exact absurd ⟨h1, h2⟩ h
    · simp [frameId, h1, h2]
  · simp [frameId, h1]

/-- The pull/write correspondence: in any trace of `capture_loop`, the write
attempts are exactly the records derived (with the counter threaded) from
the pulled frames, in pull order. -/
theorem writes_eq_deriveAll (inputs : List LoopInput) (c : Nat) :
    writeRecords (capture_loop inputs c).1 =
      deriveAll c (pulledFrames (capture_loop inputs c).1) := by
  induction inputs generalizing c with
  | nil => rfl
  | cons i rest ih =>
    obtain ⟨st, pl, wk, now⟩ := i
    cases st with
    | true => simp [capture_loop, writeRecords, pulledFrames, deriveAll]
    | false =>
      cases pl with
      | raised => simp [capture_loop, writeRecords, pulledFrames, deriveAll]
      | empty =>
        simpa [capture_loop, writeRecords, pulledFrames] using ih c
      | sample ob =>
        cases ob with
        | none =>
          simpa [capture_loop, writeRecords, pulledFrames] using ih c
        | some buf =>
          cases wk with
          | true =>
            simpa [capture_loop, writeRecords, pulledFrames, deriveAll]
              using ih (frameId buf c).2
          | false =>
            simp [capture_loop, writeRecords, pulledFrames, deriveAll]

theorem deriveAll_length (c : Nat) (ps : List (GstBuffer × Nat)) :
    (deriveAll c ps).length = ps.length := by
  induction ps generalizing c with
  | nil => rfl
  | cons p rest ih => simp [deriveAll, ih]

/-- Among records derived from a list of frames starting at counter `c`, the
fallback-derived identifiers are `seq:(c+1)`, `seq:(c+2)`, ... in order. -/
theorem deriveAll_zip_fallback (ps : List (GstBuffer × Nat)) (c : Nat) :
    ((deriveAll c ps).zip ps).filterMap
        (fun p => if isFallback p.2.1 then some p.1.frame_id else none) =
      (List.range (ps.countP fun p => decide (isFallback p.1))).map
        (fun j => "seq:" ++ toString (c + (j + 1))) := by
  induction ps generalizing c with
  | nil => rfl
  | cons p rest ih =>
    obtain ⟨b, t⟩ := p
    by_cases hb : isFallback b
    · rw [show deriveAll c ((b, t) :: rest) =
            mkMsg t b (frameId b c).1 :: deriveAll (frameId b c).2 rest from rfl,
        frameId_of_fallback b c hb]
      simp only [List.zip_cons_cons, List.filterMap_cons]
      rw [if_pos hb]
      have hcount : List.countP (fun p => decide (isFallback p.1)) ((b, t) :: rest)
          = List.countP (fun p => decide (isFallback p.1)) rest + 1 := by
        simp [List.countP_cons, hb]
      rw [hcount, List.range_succ_eq_map]
      simp only [List.map_cons, List.map_map]
      rw [ih (c + 1)]
      refine congrArg₂ _ ?_ ?_
      · simp [mkMsg]
      · refine List.map_congr_left fun j _ => ?_
        refine congrArg _ (congrArg _ ?_)
        omega
    · rw [show deriveAll c ((b, t) :: rest) =
            mkMsg t b (frameId b c).1 :: deriveAll (frameId b c).2 rest from rfl,
        frameId_snd_of_not_fallback b c hb]
      simp only [List.zip_cons_cons, List.filterMap_cons]
      rw [if_neg hb]
      have hcount : List.countP (fun p => decide (isFallback p.1)) ((b, t) :: rest)
          = List.countP (fun p => decide (isFallback p.1)) rest := by
        simp [List.countP_cons, hb]
      rw [hcount]
      exact ih c

/-- Composition of loop runs: if the loop is still live after `pre`, running
`pre ++ post` is running `pre` then `post` from the reached counter. -/
theorem capture_loop_append (pre post : List LoopInput) (c c' : Nat)
    (h : (capture_loop pre c).2 = some c') :
    capture_loop (pre ++ post) c =
      ((capture_loop pre c).1 ++ (capture_loop post c').1,
       (capture_loop post c').2) := by
  induction pre generalizing c with
  | nil =>
    simp [capture_loop] at h
    subst h
    simp [capture_loop]
  | cons i rest ih =>
    obtain ⟨st, pl, wk, now⟩ := i
    cases st with
    | true => simp [capture_loop] at h
    | false =>
      cases pl with
      | raised => simp [capture_loop] at h
      | empty =>
        simp only [capture_loop, List.cons_append, List.append_eq,
          Bool.false_eq_true, if_false] at h ⊢
        rw [ih c h]
      | sample ob =>
        cases ob with
        | none =>
          simp only [capture_loop, List.cons_append, List.append_eq,
            Bool.false_eq_true, if_false] at h ⊢
          rw [ih c h]
        | some buf =>
          cases wk with
          | true =>
            simp only [capture_loop, List.cons_append, List.append_eq,
              Bool.false_eq_true, if_false, if_true] at h ⊢
            rw [ih (frameId buf c).2 h]
          | false => simp [capture_loop] at h

/-- Worker traces are componentwise: replacing worker `j`'s schedule leaves
every other worker's trace unchanged. -/
theorem session_traces_indep (scheds : List (List LoopInput))
    (j : Nat) (s : List LoopInput) (i : Nat) (h : i ≠ j) :
    (session_traces (scheds.set j s))[i]? = (session_traces scheds)[i]? := by
  simp only [session_traces, List.getElem?_map]
  rw [List.getElem?_set_ne (Ne.symm h)]

theorem indices_nodup (ci : Nat) (d : Bool) : (indices ci d).Nodup := by
  cases d <;> simp [indices]

/-- Unfolding equation for `startThreads` on a cons cell. -/
theorem startThreads_cons (x : Nat × Option Nat)
    (aps : List (Nat × Option Nat)) (keys : List Nat) :
    startThreads (x :: aps) keys =
      if (keys.contains x.1 && x.2.isSome) = true then
        x.1 :: startThreads aps keys
      else startThreads aps keys := by
  by_cases hc : (keys.contains x.1 && x.2.isSome) = true
  · rw [if_pos hc]
    unfold startThreads
    rw [List.filterMap_cons, if_pos hc]
  · rw [if_neg hc]
    unfold startThreads
    rw [List.filterMap_cons, if_neg hc]

/-- When every appsink's index is a channel key, the thread-start loop keeps
exactly the appsinks whose sink is present. -/
theorem startThreads_keys_complete (aps : List (Nat × Option Nat))
    (keys : List Nat) (h : ∀ is ∈ aps, keys.contains is.1 = true) :
    startThreads aps keys = (aps.filter fun is => is.2.isSome).map Prod.fst := by
  induction aps with
  | nil => rfl
  | cons x rest ih =>
    have hx := h x (List.mem_cons_self x rest)
    have hrest : ∀ is ∈ rest, keys.contains is.1 = true :=
      fun is his => h is (List.mem_cons_of_mem x his)
    rw [startThreads_cons, List.filter_cons]
    cases hs : x.2.isSome with
    | true => simp [hs, ih hrest, List.elem_iff.mp hx]
    | false => simp [hs, ih hrest, List.elem_iff.mp hx]

theorem startThreads_mem_exists (aps : List (Nat × Option Nat))
    (keys : List Nat) (k : Nat) (h : k ∈ startThreads aps keys) :
    ∃ v, (k, some v) ∈ aps := by
  induction aps with
  | nil => simp [startThreads] at h
  | cons x rest ih =>
    rw [startThreads_cons] at h
    by_cases hc : (keys.contains x.1 && x.2.isSome) = true
    · rw [if_pos hc] at h
      rcases List.mem_cons.mp h with h | h
      · obtain ⟨hc1, hc2⟩ : keys.contains x.1 = true ∧ x.2.isSome = true := by
          simpa using hc
        obtain ⟨v, hv⟩ := Option.isSome_iff_exists.mp hc2
        refine ⟨v, ?_⟩
        obtain ⟨x1, x2⟩ := x
        simp only at h hv
        rw [h, ← hv]
        exact List.mem_cons_self _ _
      · obtain ⟨v, hv⟩ := ih h
        exact ⟨v, List.mem_cons_of_mem x hv⟩
    · rw [if_neg hc] at h
      obtain ⟨v, hv⟩ := ih h
      exact ⟨v, List.mem_cons_of_mem x hv⟩

/-- Every appsink entry records exactly what `make_pipeline` returned for
its index. -/
theorem build_appsink_shape (env : Env) (idxs : List Nat) :
    ∀ p ∈ (build env idxs).2.1,
      ∃ b, env.pipe p.1 = PipelineResult.ok b ∧
        p.2 = (if b then some p.1 else none) ∧ p.1 ∈ idxs := by
  induction idxs with
  | nil => simp [build]
  | cons i rest ih =>
    intro p hp
    simp only [build] at hp
    cases hpi : env.pipe i with
    | fail =>
      rw [show make_pipeline env i =
        (none, none,
          ["Failed to create pipeline for index " ++ toString i]) from by
          simp [make_pipeline, hpi]] at hp
      obtain ⟨b, h1, h2, h3⟩ := ih p hp
      exact ⟨b, h1, h2, List.mem_cons_of_mem i h3⟩
    | ok sp =>
      rw [show make_pipeline env i =
        (some { idx := i, state := GstState.playing },
          if sp then some i else none, []) from by
          simp [make_pipeline, hpi]] at hp
      simp only [List.mem_cons] at hp
      rcases hp with hp | hp
      · subst hp
        exact ⟨sp, hpi, rfl, List.mem_cons_self i rest⟩
      · obtain ⟨b, h1, h2, h3⟩ := ih p hp
        exact ⟨b, h1, h2, List.mem_cons_of_mem i h3⟩

/-- Every started pipeline is PLAYING, carries its own index, and comes from
a configured index whose open succeeded. -/
theorem build_started_shape (env : Env) (idxs : List Nat) :
    ∀ p ∈ (build env idxs).1,
      p.2 = { idx := p.1, state := GstState.playing } ∧ p.1 ∈ idxs ∧
        ∃ b, env.pipe p.1 = PipelineResult.ok b := by
  induction idxs with
  | nil => simp [build]
  | cons i rest ih =>
    intro p hp
    simp only [build] at hp
    cases hpi : env.pipe i with
    | fail =>
      rw [show (make_pipeline env i).1 = none from by
        simp [make_pipeline, hpi]] at hp
      obtain ⟨h1, h2, h3⟩ := ih p hp
      exact ⟨h1, List.mem_cons_of_mem i h2, h3⟩
    | ok sp =>
      rw [show (make_pipeline env i).1 =
        some { idx := i, state := GstState.playing } from by
          simp [make_pipeline, hpi]] at hp
      simp only [List.mem_cons] at hp
      rcases hp with hp | hp
      · subst hp
        exact ⟨rfl, List.mem_cons_self i rest, sp, hpi⟩
      · obtain ⟨h1, h2, h3⟩ := ih p hp
        exact ⟨h1, List.mem_cons_of_mem i h2, h3⟩

/-- A successfully opened index contributes its PLAYING pipeline. -/
theorem build_started_mem (env : Env) (idxs : List Nat) (k : Nat) (b : Bool)
    (hmem : k ∈ idxs) (hok : env.pipe k = PipelineResult.ok b) :
    (k, ⟨k, GstState.playing⟩) ∈ (build env idxs).1 := by
  induction idxs with
  | nil => simp at hmem
  | cons i rest ih =>
    simp only [build]
    rcases List.mem_cons.mp hmem with hk | hk
    · subst hk
      rw [show (make_pipeline env k).1 =
        some { idx := k, state := GstState.playing } from by
          simp [make_pipeline, hok]]
      exact List.mem_cons_self _ _
    · cases hpi : env.pipe i with
      | fail =>
        rw [show (make_pipeline env i).1 = none from by
          simp [make_pipeline, hpi]]
        exact ih hk
      | ok sp =>
        rw [show (make_pipeline env i).1 =
          some { idx := i, state := GstState.playing } from by
            simp [make_pipeline, hpi]]
        exact List.mem_cons_of_mem _ (ih hk)

/-- The startup loop under a single failing index `k` with all other
configured indices opening cleanly. -/
theorem build_one_fail (env : Env) (k : Nat) (idxs : List Nat)
    (hk : env.pipe k = PipelineResult.fail)
    (h : ∀ i ∈ idxs, i ≠ k → env.pipe i = PipelineResult.ok true) :
    build env idxs =
      ((idxs.filter fun i => i != k).map
         (fun i => (i, { idx := i, state := GstState.playing })),
       (idxs.filter fun i => i != k).map (fun i => (i, some i)),
       (idxs.filter fun i => i == k).map
         (fun i => "Failed to create pipeline for index " ++ toString i)) := by
  induction idxs with
  | nil => rfl
  | cons i rest ih =>
    have hrest : ∀ j ∈ rest, j ≠ k → env.pipe j = PipelineResult.ok true :=
      fun j hj => h j (List.mem_cons_of_mem i hj)
    by_cases hik : i = k
    · subst hik
      simp only [build, make_pipeline, hk, List.filter_cons]
      rw [ih hrest]
      simp
    · have hoki := h i (List.mem_cons_self i rest) hik
      simp only [build, make_pipeline, hoki, List.filter_cons]
      rw [ih hrest]
      simp [hik]

/-- With `Nodup`, filtering a member's equals gives exactly that member. -/
theorem filter_beq_of_nodup (idxs : List Nat) (k : Nat)
    (hd : idxs.Nodup) (hmem : k ∈ idxs) :
    idxs.filter (fun i => i == k) = [k] := by
  induction idxs with
  | nil => simp at hmem
  | cons x rest ih =>
    have hx : x ∉ rest := (List.nodup_cons.mp hd).1
    have hdr : rest.Nodup := (List.nodup_cons.mp hd).2
    rcases List.mem_cons.mp hmem with hk | hk
    · subst hk
      have hnil : rest.filter (fun i => i == k) = [] :=
        List.filter_eq_nil_iff.mpr fun a ha hak => by
          have hak2 : a = k := by simpa using hak
          exact hx (hak2 ▸ ha)
      simp [List.filter_cons, hnil]
    · have hxk : x ≠ k := fun hxk => hx (hxk ▸ hk)
      simp only [List.filter_cons]
      rw [if_neg (by simp [hxk])]
      exact ih hdr hk

/-- `main_run` unfolded when the MCAP writer opens. -/
theorem main_run_open_eq (a : Args) (env : Env) (hm : env.mcapOpenOk = true) :
    main_run a env =
      { errors := (build env (indices a.camera_index a.dual)).2.2
        file := mcap_file a.camera_index env.startTime
        channelTopics :=
          (((build env (indices a.camera_index a.dual)).2.1).map
            Prod.fst).map topic
        threads :=
          startThreads (build env (indices a.camera_index a.dual)).2.1
            (((build env (indices a.camera_index a.dual)).2.1).map Prod.fst)
        writes :=
          ((startThreads (build env (indices a.camera_index a.dual)).2.1
              (((build env (indices a.camera_index a.dual)).2.1).map
                Prod.fst)).map fun idx =>
            (writeRecords (worker_trace (env.sched idx))).map
              fun m => (idx, m)).flatten
        pipelinesStarted := (build env (indices a.camera_index a.dual)).1
        pipelinesAfterTeardown :=
          ((build env (indices a.camera_index a.dual)).1).map
            fun ip => (ip.1, { ip.2 with state := GstState.null })
        fatal := none
        exitOk := true } := by
  simp [main_run, hm]

/-- `main_run` unfolded when opening the MCAP writer fails. -/
theorem main_run_closed_eq (a : Args) (env : Env)
    (hm : env.mcapOpenOk = false) :
    main_run a env =
      { errors := (build env (indices a.camera_index a.dual)).2.2
        file := mcap_file a.camera_index env.startTime
        channelTopics := []
        threads := []
        writes := []
        pipelinesStarted := (build env (indices a.camera_index a.dual)).1
        pipelinesAfterTeardown :=
          ((build env (indices a.camera_index a.dual)).1).map
            fun ip => (ip.1, { ip.2 with state := GstState.null })
        fatal := some ("Unexpected error: " ++ env.mcapErr)
        exitOk := false } := by
  simp [main_run, hm]

/-- The channel keys are by construction the appsink indices, so the thread
loop's channel lookup never skips anything: only a `None` sink does. -/
theorem startThreads_self_keys (aps : List (Nat × Option Nat)) :
    startThreads aps (aps.map Prod.fst) =
      (aps.filter fun is => is.2.isSome).map Prod.fst :=
  startThreads_keys_complete aps _ fun is his =>
    List.elem_iff.mpr (List.mem_map.mpr ⟨is, his, rfl⟩)

/-- When every appsink has its sink, a thread starts for each of them. -/
theorem startThreads_all_some (l : List Nat) :
    startThreads (l.map fun i => (i, some i))
      ((l.map fun i => (i, some i)).map Prod.fst) = l := by
  rw [startThreads_self_keys]
  rw [List.filter_eq_self.mpr ?_]
  · rw [List.map_map]
    exact List.map_id l
  · intro a ha
    rcases List.mem_map.mp ha with ⟨i, _, rfl⟩
    rfl

/-- The output file name is the same function of the first camera index and
start time on every path of the program. -/
theorem main_run_file (a : Args) (env : Env) :
    (main_run a env).file = mcap_file a.camera_index env.startTime := by
  by_cases hm : env.mcapOpenOk = true
  · rw [main_run_open_eq a env hm]
  · rw [main_run_closed_eq a env (by simpa using hm)]

/-- Every write of a run is tagged with the index of the thread that made
it. -/
theorem writes_fst_mem (a : Args) (env : Env) :
    ∀ w ∈ (main_run a env).writes, w.1 ∈ (main_run a env).threads := by
  intro w hw
  by_cases hm : env.mcapOpenOk = true
  · rw [main_run_open_eq a env hm] at hw ⊢
    simp only at hw ⊢
    rw [List.mem_flatten] at hw
    obtain ⟨l, hl, hwl⟩ := hw
    rw [List.mem_map] at hl
    obtain ⟨idx, hidx, rfl⟩ := hl
    rw [List.mem_map] at hwl
    obtain ⟨m, _, rfl⟩ := hwl
    exact hidx
  · rw [main_run_closed_eq a env (Bool.not_eq_true _ ▸ hm)] at hw
    simp at hw

/-! ### Claim theorems -/

/-- C1: for every pulled frame whose buffer carries a valid presentation
timestamp `t`, the derived identifier is `"pts:" ++ t`, whatever the decode
timestamp and whatever the per-worker counter (which is left unchanged);
the decode timestamp is used (`"dts:..."`) only when the presentation
timestamp is absent, and the counter fallback only when both are absent. -/
theorem frameId_policy (buf : GstBuffer) (c : Nat) :
    (buf.pts ≠ CLOCK_TIME_NONE →
      frameId buf c = ("pts:" ++ toString buf.pts, c)) ∧
    (buf.pts = CLOCK_TIME_NONE → buf.dts ≠ CLOCK_TIME_NONE →
      frameId buf c = ("dts:" ++ toString buf.dts, c)) ∧
    (buf.pts = CLOCK_TIME_NONE → buf.dts = CLOCK_TIME_NONE →
      frameId buf c = ("seq:" ++ toString (c + 1), c + 1)) :=
  ⟨frameId_of_pts buf c,
   frameId_of_dts buf c,
   fun h1 h2 => frameId_of_fallback buf c ⟨h1, h2⟩⟩

theorem frameId_policy_witness :
    frameId bufPts 3 = ("pts:" ++ toString 5, 3) ∧
    frameId bufDts 3 = ("dts:" ++ toString 7, 3) ∧
    frameId bufBare 3 = ("seq:" ++ toString 4, 4) :=
  ⟨(frameId_policy bufPts 3).1 (by decide),
   (frameId_policy bufDts 3).2.1 rfl (by decide),
   (frameId_policy bufBare 3).2.2 rfl rfl⟩

/-- C2: starting from `frame_seq_local = 0` at the worker's start, the
identifiers of the fallback-derived writes over the worker's whole run are
`"seq:1", "seq:2", ...` in order — strictly increasing from 1, so any run of
consecutive timestamp-less frames from the worker's start yields
`"seq:1", ..., "seq:n"`; and the counter is local to its worker: replacing
another worker's entire schedule leaves this worker's trace unchanged. -/
theorem seq_fallback_counter :
    (∀ inputs : List LoopInput,
      fallbackWriteIds (worker_trace inputs) =
        (List.range (numFallback (worker_trace inputs))).map
          (fun j => "seq:" ++ toString (j + 1))) ∧
    (∀ (scheds : List (List LoopInput)) (j : Nat) (s : List LoopInput)
        (i : Nat), i ≠ j →
      (session_traces (scheds.set j s))[i]? = (session_traces scheds)[i]?) := by
  constructor
  · intro inputs
    unfold fallbackWriteIds numFallback worker_trace
    rw [writes_eq_deriveAll inputs 0, deriveAll_zip_fallback]
    exact List.map_congr_left fun j _ => by rw [Nat.zero_add]
  · exact fun scheds j s i h => session_traces_indep scheds j s i h

theorem seq_fallback_counter_witness :
    fallbackWriteIds (worker_trace [inBare, inEmpty, inBare]) =
      (List.range (numFallback (worker_trace [inBare, inEmpty, inBare]))).map
        (fun j => "seq:" ++ toString (j + 1)) ∧
    (session_traces ([[inBare], [inEmpty]].set 0 [inStop]))[1]? =
      (session_traces [[inBare], [inEmpty]])[1]? :=
  ⟨seq_fallback_counter.1 [inBare, inEmpty, inBare],
   seq_fallback_counter.2 [[inBare], [inEmpty]] 0 [inStop] 1 (by decide)⟩

/-- C3: in any worker trace the write attempts are exactly the records
derived, in pull order and threading the counter, from the frames the loop
pulled while live — one write attempt per pulled frame (equal counts),
none duplicated, dropped without an attempt, or reordered. -/
theorem pull_write_exactly_once (inputs : List LoopInput) (c : Nat) :
    writeRecords (capture_loop inputs c).1 =
      deriveAll c (pulledFrames (capture_loop inputs c).1) ∧
    (writeRecords (capture_loop inputs c).1).length =
      (pulledFrames (capture_loop inputs c).1).length :=
  ⟨writes_eq_deriveAll inputs c,
   by rw [writes_eq_deriveAll inputs c, deriveAll_length]⟩

/-- C5: a failed `channel.log` is not retried and ends that worker's loop
permanently — the iteration emits exactly the one failing write attempt and
the loop exits with the same trace whatever further input was scheduled;
and any other worker's trace is unchanged by anything in this worker's
schedule. -/
theorem write_failure_isolated :
    (∀ (i : LoopInput) (rest : List LoopInput) (c : Nat) (buf : GstBuffer),
      i.stopSet = false → i.pull = PullResult.sample (some buf) →
      i.writeOk = false →
      capture_loop (i :: rest) c =
        ([Event.pullFrame buf i.now,
          Event.writeAttempt (mkMsg i.now buf (frameId buf c).1),
          Event.writeFailed], none)) ∧
    (∀ (scheds : List (List LoopInput)) (j : Nat) (s : List LoopInput)
        (i : Nat), i ≠ j →
      (session_traces (scheds.set j s))[i]? = (session_traces scheds)[i]?) := by
  constructor
  · intro i rest c buf h1 h2 h3
    obtain ⟨st, pl, wk, now⟩ := i
    simp only at h1 h2 h3 ⊢
    subst h1
    subst h2
    subst h3
    simp [capture_loop]
  · exact fun scheds j s i h => session_traces_indep scheds j s i h

theorem write_failure_isolated_witness :
    capture_loop (inBadWrite :: [inEmpty]) 0 =
      ([Event.pullFrame bufBare inBadWrite.now,
        Event.writeAttempt (mkMsg inBadWrite.now bufBare (frameId bufBare 0).1),
        Event.writeFailed], none) ∧
    (session_traces ([[inBadWrite], [inBare]].set 0 [inStop]))[1]? =
      (session_traces [[inBadWrite], [inBare]])[1]? :=
  ⟨write_failure_isolated.1 inBadWrite [inEmpty] 0 bufBare rfl rfl rfl,
   write_failure_isolated.2 [[inBadWrite], [inBare]] 0 [inStop] 1 (by decide)⟩

/-- C6: once the stop event is set, a still-live worker exits at the very
next loop-top check: whatever its earlier trace, the remainder is exactly
the stop observation — no further pull, write attempt, or idle wait occurs
after the signal, so a worker that was in its idle wait finishes at most
that one in-flight idle interval before reaching its stopped state. -/
theorem stop_signal_prompt_exit (pre : List LoopInput) (i : LoopInput)
    (rest : List LoopInput) (c c' : Nat)
    (hlive : (capture_loop pre c).2 = some c')
    (hstop : i.stopSet = true) :
    capture_loop (pre ++ i :: rest) c =
      ((capture_loop pre c).1 ++ [Event.stopObserved], none) := by
  rw [capture_loop_append pre (i :: rest) c c' hlive]
  obtain ⟨st, pl, wk, now⟩ := i
  simp only at hstop
  subst hstop
  simp [capture_loop]

theorem stop_signal_prompt_exit_witness :
    capture_loop ([inEmpty] ++ inStop :: []) 0 =
      ((capture_loop [inEmpty] 0).1 ++ [Event.stopObserved], none) :=
  stop_signal_prompt_exit [inEmpty] inStop [] 0 0 rfl rfl

/-- C7: if opening the shared MCAP journal fails, no capture thread is ever
started, no channel exists and no record is written for any camera, the
failure is reported with a descriptive message, and the process exits
non-zero; the started pipelines are still torn down. -/
theorem journal_open_failure_aborts (a : Args) (env : Env)
    (hm : env.mcapOpenOk = false) :
    (main_run a env).threads = [] ∧
    (main_run a env).writes = [] ∧
    (main_run a env).channelTopics = [] ∧
    (main_run a env).fatal = some ("Unexpected error: " ++ env.mcapErr) ∧
    (main_run a env).exitOk = false := by
  rw [main_run_closed_eq a env hm]
  exact ⟨rfl, rfl, rfl, rfl, rfl⟩

theorem journal_open_failure_aborts_witness :
    (main_run ⟨0, false, true⟩ envNoJournal).threads = [] ∧
    (main_run ⟨0, false, true⟩ envNoJournal).writes = [] ∧
    (main_run ⟨0, false, true⟩ envNoJournal).channelTopics = [] ∧
    (main_run ⟨0, false, true⟩ envNoJournal).fatal =
      some ("Unexpected error: " ++ envNoJournal.mcapErr) ∧
    (main_run ⟨0, false, true⟩ envNoJournal).exitOk = false :=
  journal_open_failure_aborts ⟨0, false, true⟩ envNoJournal rfl

/-- C8: stopping is idempotent: setting the shared stop event a second time
equals setting it once; running the teardown loop a second time equals
running it once; and repeating one pipeline's `set_state(NULL)` has no
further effect — nothing is closed twice with a different effect. -/
theorem stop_teardown_idempotent (s : SessionState) (p : Pipeline) :
    setStop (setStop s) = setStop s ∧
    teardownAll (teardownAll s) = teardownAll s ∧
    setNull (setNull p) = setNull p := by
  refine ⟨rfl, ?_, rfl⟩
  unfold teardownAll
  simp only [List.map_map]
  exact congrArg _ (List.map_congr_left fun ip _ => rfl)

/-- C4: with the journal opening fine, if the pipeline for one configured
index `k` fails to open while every other configured index opens cleanly,
exactly one startup error (for `k`) is printed, `k` is skipped, and a
capture thread still starts for every other configured index — the session
runs with N-1 workers for N configured indices. -/
theorem one_camera_failure_tolerated (a : Args) (env : Env) (k : Nat)
    (hm : env.mcapOpenOk = true)
    (hk : k ∈ indices a.camera_index a.dual)
    (hfail : env.pipe k = PipelineResult.fail)
    (hok : ∀ i ∈ indices a.camera_index a.dual, i ≠ k →
      env.pipe i = PipelineResult.ok true) :
    (main_run a env).errors =
      ["Failed to create pipeline for index " ++ toString k] ∧
    (main_run a env).threads.length =
      (indices a.camera_index a.dual).length - 1 ∧
    k ∉ (main_run a env).threads ∧
    ∀ i ∈ indices a.camera_index a.dual, i ≠ k →
      i ∈ (main_run a env).threads := by
  have hb := build_one_fail env k (indices a.camera_index a.dual) hfail hok
  have hthreads : (main_run a env).threads =
      (indices a.camera_index a.dual).filter (fun i => i != k) := by
    simp only [main_run_open_eq a env hm, hb]
    exact startThreads_all_some _
  refine ⟨?_, ?_, ?_, ?_⟩
  · simp only [main_run_open_eq a env hm, hb]
    rw [filter_beq_of_nodup _ k (indices_nodup _ _) hk]
    rfl
  · rw [hthreads, ← List.Nodup.erase_eq_filter (indices_nodup _ _) k,
      List.length_erase_of_mem hk]
  · rw [hthreads]
    intro hmem
    have hne := (List.mem_filter.mp hmem).2
    simp at hne
  · intro i hi hik
    rw [hthreads]
    exact List.mem_filter.mpr ⟨hi, by simp [hik]⟩

theorem one_camera_failure_tolerated_witness :
    (main_run ⟨0, false, true⟩ envFail1).errors =
      ["Failed to create pipeline for index " ++ toString 1] ∧
    (main_run ⟨0, false, true⟩ envFail1).threads.length =
      (indices 0 true).length - 1 ∧
    1 ∉ (main_run ⟨0, false, true⟩ envFail1).threads ∧
    ∀ i ∈ indices 0 true, i ≠ 1 →
      i ∈ (main_run ⟨0, false, true⟩ envFail1).threads :=
  one_camera_failure_tolerated ⟨0, false, true⟩ envFail1 1
    rfl (by decide) (by decide) (by decide)

/-- C9: the journal file name is derived only from the first configured
camera index and the session start time — the dual flag (hence the second
camera's index) never enters it — and in dual mode both cameras' records
land in that single file, on the per-camera topics
`/camera/<idx>/image/compressed`. -/
theorem single_file_per_camera_topics (ci : Nat) (m1 m2 d : Bool)
    (env : Env) :
    ((main_run ⟨ci, m1, true⟩ env).file =
        "camera_" ++ toString ci ++ "_" ++ env.startTime ++ ".mcap" ∧
      (main_run ⟨ci, m1, true⟩ env).file = (main_run ⟨ci, m2, d⟩ env).file) ∧
    (env.mcapOpenOk = true →
      env.pipe ci = PipelineResult.ok true →
      env.pipe (ci + 1) = PipelineResult.ok true →
      (main_run ⟨ci, m1, true⟩ env).channelTopics =
        [topic ci, topic (ci + 1)] ∧
      ∀ w ∈ (main_run ⟨ci, m1, true⟩ env).writes,
        w.1 = ci ∨ w.1 = ci + 1) := by
  refine ⟨⟨?_, ?_⟩, ?_⟩
  · rw [main_run_file]
    rfl
  · rw [main_run_file, main_run_file]
  · intro hm hok1 hok2
    have hb : build env (indices ci true) =
        ([(ci, { idx := ci, state := GstState.playing }),
          (ci + 1, { idx := ci + 1, state := GstState.playing })],
         [(ci, some ci), (ci + 1, some (ci + 1))], []) := by
      simp [indices, build, make_pipeline, hok1, hok2]
    have hth : startThreads [(ci, some ci), (ci + 1, some (ci + 1))]
        ([(ci, some ci), (ci + 1, some (ci + 1))].map Prod.fst) =
        [ci, ci + 1] := by
      have h2 := startThreads_all_some [ci, ci + 1]
      simpa using h2
    constructor
    · simp only [main_run_open_eq _ env hm, hb]
      rfl
    · intro w hw
      have hwt := writes_fst_mem ⟨ci, m1, true⟩ env w hw
      simp only [main_run_open_eq _ env hm, hb, hth] at hwt
      rcases List.mem_cons.mp hwt with h | h
      · exact Or.inl h
      · rcases List.mem_cons.mp h with h2 | h2
        · exact Or.inr h2
        · simp at h2

theorem single_file_per_camera_topics_witness :
    ((main_run ⟨0, false, true⟩ envAllOk).file =
        "camera_" ++ toString 0 ++ "_" ++ envAllOk.startTime ++ ".mcap" ∧
      (main_run ⟨0, false, true⟩ envAllOk).file =
        (main_run ⟨0, true, false⟩ envAllOk).file) ∧
    ((main_run ⟨0, false, true⟩ envAllOk).channelTopics =
        [topic 0, topic (0 + 1)] ∧
      ∀ w ∈ (main_run ⟨0, false, true⟩ envAllOk).writes,
        w.1 = 0 ∨ w.1 = 0 + 1) :=
  ⟨(single_file_per_camera_topics 0 false true false envAllOk).1,
   (single_file_per_camera_topics 0 false true false envAllOk).2
     rfl rfl rfl⟩

/-- C10: if camera `k`'s pipeline is constructed but the appsink lookup
returns `None`, the pipeline is still set PLAYING and later torn down to
NULL, yet no capture thread is started for `k` — so the `None` sink is
never pulled from and no record is ever written for camera `k`. -/
theorem missing_sink_no_thread (a : Args) (env : Env) (k : Nat)
    (hm : env.mcapOpenOk = true)
    (hk : k ∈ indices a.camera_index a.dual)
    (hns : env.pipe k = PipelineResult.ok false) :
    (k, { idx := k, state := GstState.playing }) ∈
      (main_run a env).pipelinesStarted ∧
    (k, { idx := k, state := GstState.null }) ∈
      (main_run a env).pipelinesAfterTeardown ∧
    k ∉ (main_run a env).threads ∧
    ∀ w ∈ (main_run a env).writes, w.1 ≠ k := by
  have hstart : (k, { idx := k, state := GstState.playing }) ∈
      (build env (indices a.camera_index a.dual)).1 :=
    build_started_mem env _ k false hk hns
  have hnothread : k ∉ (main_run a env).threads := by
    intro hmem
    simp only [main_run_open_eq a env hm] at hmem
    obtain ⟨v, hv⟩ := startThreads_mem_exists _ _ k hmem
    obtain ⟨b, hb1, hb2, _⟩ := build_appsink_shape env _ (k, some v) hv
    simp only at hb1 hb2
    rw [hns] at hb1
    injection hb1 with hb
    subst hb
    simp at hb2
  refine ⟨?_, ?_, hnothread, ?_⟩
  · simp only [main_run_open_eq a env hm]
    exact hstart
  · simp only [main_run_open_eq a env hm]
    exact List.mem_map.mpr
      ⟨(k, { idx := k, state := GstState.playing }), hstart, rfl⟩
  · intro w hw hwk
    exact hnothread (hwk ▸ writes_fst_mem a env w hw)

theorem missing_sink_no_thread_witness :
    (0, { idx := 0, state := GstState.playing }) ∈
      (main_run ⟨0, false, false⟩ envNoSink0).pipelinesStarted ∧
    (0, { idx := 0, state := GstState.null }) ∈
      (main_run ⟨0, false, false⟩ envNoSink0).pipelinesAfterTeardown ∧
    0 ∉ (main_run ⟨0, false, false⟩ envNoSink0).threads ∧
    ∀ w ∈ (main_run ⟨0, false, false⟩ envNoSink0).writes, w.1 ≠ 0 :=
  missing_sink_no_thread ⟨0, false, false⟩ envNoSink0 0
    rfl (by decide) (by decide)

end Capture
